import Mathlib

/-!
# Verification of the Ivan tracker core (Go package `tracker`)

Shallow embedding of the item data model and its transition rules
(`item.go`) and of the tracker facade's zone-item addressing, catalog
lookup and reset (`tracker.go`), with proofs of the spec's claims.

Go machine integers are modelled as `Int`; Go's `%` on `int` is
truncated division remainder, i.e. `Int.tmod`. Go slice indexing that
can panic is modelled with `Option` (a `none` result marks the panic).
-/

namespace Ivan

/-- The fields of a Go `tracker.Item` struct, parametrised by the type
of the self-referential `ItemProgression` field (`[]Item` in Go). -/
structure ItemData (Sub : Type) where
  Name : String
  X : Int
  Y : Int
  SheetX : Int
  SheetY : Int
  CapacityProgression : List Int
  ItemProgression : List Sub
  upgradeIndex : Int
  templeIndex : Int
  CountMax : Int
  CountStep : Int
  count : Int
  IsMedallion : Bool
  IsSong : Bool
  Enabled : Bool

/-- Go `tracker.Item`: a structure that nests lists of itself
(`ItemProgression []Item`), hence an inductive wrapper. -/
inductive Item where
| mk : ItemData Item → Item

/-- Projection onto the field record. -/
def Item.data : Item → ItemData Item
| .mk d => d

@[simp] theorem Item.data_mk (d : ItemData Item) : (Item.mk d).data = d := rfl

def Item.Name (item : Item) : String := item.data.Name
def Item.CapacityProgression (item : Item) : List Int := item.data.CapacityProgression
def Item.ItemProgression (item : Item) : List Item := item.data.ItemProgression
def Item.upgradeIndex (item : Item) : Int := item.data.upgradeIndex
def Item.templeIndex (item : Item) : Int := item.data.templeIndex
def Item.CountMax (item : Item) : Int := item.data.CountMax
def Item.CountStep (item : Item) : Int := item.data.CountStep
def Item.count (item : Item) : Int := item.data.count
def Item.IsMedallion (item : Item) : Bool := item.data.IsMedallion
def Item.Enabled (item : Item) : Bool := item.data.Enabled

/-- Go `HasCapacity`: `len(item.CapacityProgression) > 0`. -/
def Item.HasCapacity (item : Item) : Bool := decide (0 < item.CapacityProgression.length)

/-- Go `IsCountable`: `item.CountMax != 0`. -/
def Item.IsCountable (item : Item) : Bool := decide (item.CountMax ≠ 0)

/-- Go `Capacity`: `-1` without capacity, the raw `upgradeIndex` for
countable items, else `CapacityProgression[upgradeIndex]` (whose panic
on an out-of-range index is modelled as `none`). -/
def Item.capacity (item : Item) : Option Int :=
  if ¬ item.HasCapacity then some (-1)
  else if item.IsCountable then some item.upgradeIndex
  else if h : 0 ≤ item.upgradeIndex ∧ item.upgradeIndex.toNat < item.CapacityProgression.length
  then some (item.CapacityProgression.get ⟨item.upgradeIndex.toNat, h.2⟩)
  else none

/-- Go `countUp`: add `CountStep` to `count`, clamp at `CountMax`. -/
def Item.countUp (item : Item) : Item :=
  let c := item.count + item.CountStep
  if c > item.CountMax then .mk { item.data with count := item.CountMax }
  else .mk { item.data with count := c }

/-- Go `countDown`: subtract `CountStep` from `count`; when the result
is negative, clamp to `0` and disable the item. -/
def Item.countDown (item : Item) : Item :=
  let c := item.count - item.CountStep
  if c < 0 then .mk { item.data with count := 0, Enabled := false }
  else .mk { item.data with count := c }

/-- The `max` computed inside Go `Upgrade` and `Downgrade`:
`len(ItemProgression)` when positive, else `len(CapacityProgression)`
when positive, else `0`. -/
def Item.progressionMax (item : Item) : Int :=
  if 0 < item.ItemProgression.length then (item.ItemProgression.length : Int)
  else if 0 < item.CapacityProgression.length then (item.CapacityProgression.length : Int)
  else 0

/-- Go `Upgrade`: returns the `bool` result paired with the mutated item. -/
def Item.upgrade (item : Item) : Bool × Item :=
  if ¬ item.Enabled then (true, .mk { item.data with Enabled := true })
  else if item.IsCountable then (true, item.countUp)
  else
    let max := item.progressionMax
    if max = 0 ∨ item.upgradeIndex + 1 ≥ max then (false, item)
    else (true, .mk { item.data with upgradeIndex := (item.upgradeIndex + 1).tmod max })

/-- Go `Downgrade`: returns the `bool` result paired with the mutated item. -/
def Item.downgrade (item : Item) : Bool × Item :=
  if ¬ item.Enabled then (false, item)
  else if item.IsCountable then (true, item.countDown)
  else
    let max := item.progressionMax
    if max = 0 ∨ item.upgradeIndex - 1 < 0 then (true, .mk { item.data with Enabled := false })
    else (true, .mk { item.data with upgradeIndex := (item.upgradeIndex - 1).tmod max })

/-- The Go package-level `temples` label table. -/
def temples : List String :=
  ["", "Free",
   "Deku", "DC", "Jabu",
   "Forest", "Fire", "Water",
   "Spirit", "Shdw"]

/-- Go `CycleTemple`: step `templeIndex` up modulo `len(temples)`, or
down with an explicit wrap from `0` to `len(temples)-1`. -/
def Item.cycleTemple (item : Item) (up : Bool) : Item :=
  if up then .mk { item.data with templeIndex := (item.templeIndex + 1).tmod (temples.length : Int) }
  else if item.templeIndex - 1 < 0 then .mk { item.data with templeIndex := (temples.length : Int) - 1 }
  else .mk { item.data with templeIndex := item.templeIndex - 1 }

/-- Go `TempleText`: `temples[templeIndex]`, with the panic on an
out-of-range index modelled as `none`. -/
def Item.templeText (item : Item) : Option String :=
  if h : 0 ≤ item.templeIndex ∧ item.templeIndex.toNat < temples.length
  then some (temples.get ⟨item.templeIndex.toNat, h.2⟩)
  else none

/-- Go `ZoneItemMap`: a `[9][9]string` array. -/
def ZoneItemMap := Fin 9 → Fin 9 → String

/-- The errors the tracker lookups can return (Go `error` values,
distinguished by their construction site and message). -/
inductive TrackerError where
| invalidZoneKP
| invalidItemKP
| undefinedMapping (zoneKP itemKP : Int)
| misconfigured (name : String)
deriving DecidableEq

/-- Modelled from the spec: the element type of the history stacks,
`{item_index: int, was_upgrade: bool}` (the Go declaration of
`undoStackEntry` lives in a source file that is not in the tree). -/
structure UndoStackEntry where
  itemIndex : Int
  isUpgrade : Bool

/-- The tracker-state fields of the Go `Tracker` struct relevant to the
core (rendering handles, fonts, geometry and the keyboard-input
sub-struct are platform plumbing and carry no invariants). -/
structure Tracker where
  items : List Item
  zoneItemMap : ZoneItemMap
  locations : List String
  woths : List String
  barrens : List String
  always : Fin 7 → String
  sometimes : List String
  undoStack : List UndoStackEntry
  redoStack : List UndoStackEntry

/-- Go `GetZoneItem`: range-check both keypad digits, read the
`[zoneKP-1][itemKP-1]` cell, and fail when it is empty. The method
never writes to the tracker, so it is a pure function of it. -/
def Tracker.getZoneItem (t : Tracker) (zoneKP itemKP : Int) : Except TrackerError String :=
  if h1 : zoneKP ≤ 0 ∨ 9 < zoneKP then .error .invalidZoneKP
  else if h2 : itemKP ≤ 0 ∨ 9 < itemKP then .error .invalidItemKP
  else
    let name := t.zoneItemMap ⟨(zoneKP - 1).toNat, by omega⟩ ⟨(itemKP - 1).toNat, by omega⟩
    if name = "" then .error (.undefinedMapping zoneKP itemKP)
    else .ok name

/-- Go `getItemIndexByName`: linear scan over the catalog, first item
whose `Name` matches wins, `-1` when none does. The `Nat` argument is
the loop index `k`. -/
def itemIndexFrom (name : String) : List Item → Nat → Int
| [], _ => -1
| it :: rest, k => if it.Name = name then (k : Int) else itemIndexFrom name rest (k + 1)

def Tracker.getItemIndexByName (t : Tracker) (name : String) : Int :=
  itemIndexFrom name t.items 0

/-- Go `GetZoneItemIndex`: compose `GetZoneItem` with the name lookup;
Go's `(int, error)` pair is modelled as `Int × Option TrackerError`. -/
def Tracker.getZoneItemIndex (t : Tracker) (zoneKP itemKP : Int) : Int × Option TrackerError :=
  match t.getZoneItem zoneKP itemKP with
  | .error e => (-1, some e)
  | .ok name =>
    let index := t.getItemIndexByName name
    if index < 0 then (-1, some (.misconfigured name))
    else (index, none)

/-- Go `Reset`: install the new catalog and zone-item map, truncate the
two history stacks and the three hint collections, and zero the fixed
`always` array. -/
def Tracker.reset (t : Tracker) (items : List Item) (zoneItemMap : ZoneItemMap) : Tracker :=
  { t with
    items := items
    zoneItemMap := zoneItemMap
    undoStack := []
    redoStack := []
    woths := []
    barrens := []
    sometimes := []
    always := fun _ => "" }

/-- A left click or right click on an item, as the history-replay code
applies them: the state part of `Upgrade` / `Downgrade`. -/
inductive ItemOp where
| up
| down

def Item.applyOp (item : Item) : ItemOp → Item
| .up => item.upgrade.2
| .down => item.downgrade.2

def Item.applyOps (item : Item) : List ItemOp → Item
| [] => item
| op :: ops => (item.applyOp op).applyOps ops

/-- All-zero item record, the base of the concrete test items below
(the zero value a Go `Item` literal starts from). -/
def baseData : ItemData Item :=
  { Name := ""
    X := 0
    Y := 0
    SheetX := 0
    SheetY := 0
    CapacityProgression := []
    ItemProgression := []
    upgradeIndex := 0
    templeIndex := 0
    CountMax := 0
    CountStep := 0
    count := 0
    IsMedallion := false
    IsSong := false
    Enabled := false }

/-- A plain disabled item with no progression. -/
def offItem : Item := .mk { baseData with Name := "Kokiri Sword" }

/-- An enabled countable item mid-range. -/
def tokenItem : Item :=
  .mk { baseData with
        Name := "Gold Skulltula Token"
        Enabled := true
        CountMax := 100
        CountStep := 1
        count := 10 }

/-- An enabled countable item whose count is low enough that one
downgrade would go negative. -/
def tokenLow : Item :=
  .mk { baseData with
        Name := "Gold Skulltula Token"
        Enabled := true
        CountMax := 100
        CountStep := 3
        count := 2 }

/-- An enabled stepped item in a middle tier of a 3-tier capacity
progression. -/
def steppedMid : Item :=
  .mk { baseData with
        Name := "Strength"
        Enabled := true
        CapacityProgression := [1, 2, 3]
        upgradeIndex := 1 }

/-- An enabled stepped item at the top tier. -/
def steppedTop : Item :=
  .mk { baseData with
        Name := "Strength"
        Enabled := true
        CapacityProgression := [1, 2, 3]
        upgradeIndex := 2 }

/-- A disabled stepped item with a 2-entry capacity progression, the
counterexample input for the N-1-upgrades claim. -/
def steppedOff2 : Item :=
  .mk { baseData with
        Name := "Bomb Bag"
        CapacityProgression := [20, 30] }

/-- A medallion item whose temple index sits on the next-to-last label. -/
def medallionAt8 : Item :=
  .mk { baseData with
        Name := "Light Medallion"
        IsMedallion := true
        templeIndex := 8 }

/-- An item that is both countable and carries a capacity progression
(the configuration `Capacity`'s countable branch is reachable from). -/
def capCountItem : Item :=
  .mk { baseData with
        Name := "Bombchu"
        Enabled := true
        CapacityProgression := [10, 20]
        CountMax := 50
        CountStep := 10
        count := 30
        upgradeIndex := 1 }

/-- An item named like the cell the sample zone-item map stores. -/
def hookshotItem : Item := .mk { baseData with Name := "Hookshot" }

/-- A 9x9 zone-item map whose only defined cell is `map[4][4] = "Hookshot"`. -/
def hookshotMap : ZoneItemMap := fun z i => if z.val = 4 ∧ i.val = 4 then "Hookshot" else ""

/-- A tracker with the sample zone-item map and a two-item catalog. -/
def baseTracker : Tracker :=
  { items := [offItem, hookshotItem]
    zoneItemMap := hookshotMap
    locations := []
    woths := []
    barrens := []
    always := fun _ => ""
    sometimes := []
    undoStack := []
    redoStack := [] }

/-- The count-invariant a countable item keeps: fixed bounds
configuration and a count inside `[0, CountMax]`. -/
def GoodCount (m s : Int) (item : Item) : Prop :=
  item.CountMax = m ∧ item.CountStep = s ∧ 0 ≤ item.count ∧ item.count ≤ m

@[simp] theorem Name_mk (d : ItemData Item) : (Item.mk d).Name = d.Name := rfl

@[simp] theorem CapacityProgression_mk (d : ItemData Item) :
    (Item.mk d).CapacityProgression = d.CapacityProgression := rfl

@[simp] theorem ItemProgression_mk (d : ItemData Item) :
    (Item.mk d).ItemProgression = d.ItemProgression := rfl

@[simp] theorem upgradeIndex_mk (d : ItemData Item) :
    (Item.mk d).upgradeIndex = d.upgradeIndex := rfl

@[simp] theorem templeIndex_mk (d : ItemData Item) :
    (Item.mk d).templeIndex = d.templeIndex := rfl

@[simp] theorem CountMax_mk (d : ItemData Item) : (Item.mk d).CountMax = d.CountMax := rfl

@[simp] theorem CountStep_mk (d : ItemData Item) : (Item.mk d).CountStep = d.CountStep := rfl

@[simp] theorem count_mk (d : ItemData Item) : (Item.mk d).count = d.count := rfl

@[simp] theorem Enabled_mk (d : ItemData Item) : (Item.mk d).Enabled = d.Enabled := rfl

@[simp] theorem mk_data (item : Item) : Item.mk item.data = item := by cases item; rfl

/-- C1: `Upgrade()` follows the three-step rule: a disabled item is
enabled (returns true); an enabled countable item has `CountStep` added
to `count`, clamped at `CountMax` (returns true); any other enabled
item returns false when `max = 0` or `upgradeIndex + 1 >= max` and
otherwise increments `upgradeIndex` and returns true. -/
theorem upgrade_three_step_rule (item : Item) :
    (item.Enabled = false →
      item.upgrade = (true, .mk { item.data with Enabled := true })) ∧
    (item.Enabled = true → item.IsCountable = true →
      item.upgrade = (true, .mk { item.data with
        count := min (item.count + item.CountStep) item.CountMax })) ∧
    (item.Enabled = true → item.IsCountable = false →
      ((item.progressionMax = 0 ∨ item.upgradeIndex + 1 ≥ item.progressionMax) →
        item.upgrade = (false, item)) ∧
      (0 ≤ item.upgradeIndex → ¬ (item.progressionMax = 0) →
        item.upgradeIndex + 1 < item.progressionMax →
        item.upgrade = (true, .mk { item.data with upgradeIndex := item.upgradeIndex + 1 }))) := by
  have htm : ∀ a b : Int, 0 ≤ a → a < b → a.tmod b = a := fun a b h1 h2 => by
    rw [Int.tmod_eq_emod h1 (by omega)]
    exact Int.emod_eq_of_lt h1 h2
  refine ⟨fun h => by simp [Item.upgrade, h], fun h hc => ?_, fun h hc => ⟨fun hg => ?_, ?_⟩⟩
  · simp [Item.upgrade, h, hc, Item.countUp]
    split_ifs with h1
    · rw [min_eq_right (by omega)]
    · rw [min_eq_left (by omega)]
  · simp [Item.upgrade, h, hc]
    omega
  · intro h0 hmax hlt
    simp [Item.upgrade, h, hc]
    split_ifs with h1
    · omega
    · rw [htm _ _ (by omega) hlt]

/-- Witness for C1 at concrete items: a disabled item, a countable
item, a stepped item at the top and one mid-progression. -/
theorem upgrade_three_step_rule_witness :
    offItem.upgrade = (true, .mk { offItem.data with Enabled := true }) ∧
    tokenItem.upgrade = (true, .mk { tokenItem.data with
      count := min (tokenItem.count + tokenItem.CountStep) tokenItem.CountMax }) ∧
    steppedTop.upgrade = (false, steppedTop) ∧
    steppedMid.upgrade = (true, .mk { steppedMid.data with
      upgradeIndex := steppedMid.upgradeIndex + 1 }) :=
  ⟨(upgrade_three_step_rule offItem).1 (by decide),
   (upgrade_three_step_rule tokenItem).2.1 (by decide) (by decide),
   ((upgrade_three_step_rule steppedTop).2.2 (by decide) (by decide)).1 (Or.inr (by decide)),
   ((upgrade_three_step_rule steppedMid).2.2 (by decide) (by decide)).2
     (by decide) (by decide) (by decide)⟩

/-- C2: `Downgrade()` follows the three-step rule: a disabled item is
untouched (returns false); an enabled countable item has `CountStep`
subtracted from `count`, and when the result is negative the count is
clamped to 0 and the item disabled (returns true either way); any other
enabled item is disabled when `max = 0` or `upgradeIndex = 0` and
otherwise has `upgradeIndex` decremented (returns true either way). -/
theorem downgrade_three_step_rule (item : Item) :
    (item.Enabled = false → item.downgrade = (false, item)) ∧
    (item.Enabled = true → item.IsCountable = true →
      (item.count - item.CountStep < 0 →
        item.downgrade = (true, .mk { item.data with count := 0, Enabled := false })) ∧
      (0 ≤ item.count - item.CountStep →
        item.downgrade = (true, .mk { item.data with count := item.count - item.CountStep }))) ∧
    (item.Enabled = true → item.IsCountable = false → 0 ≤ item.upgradeIndex →
      ((item.progressionMax = 0 ∨ item.upgradeIndex = 0) →
        item.downgrade = (true, .mk { item.data with Enabled := false })) ∧
      (¬ (item.progressionMax = 0) → ¬ (item.upgradeIndex = 0) →
        item.upgradeIndex < item.progressionMax →
        item.downgrade = (true, .mk { item.data with
          upgradeIndex := item.upgradeIndex - 1 }))) := by
  have htm : ∀ a b : Int, 0 ≤ a → a < b → a.tmod b = a := fun a b h1 h2 => by
    rw [Int.tmod_eq_emod h1 (by omega)]
    exact Int.emod_eq_of_lt h1 h2
  refine ⟨fun h => by simp [Item.downgrade, h],
    fun h hc => ⟨fun hneg => ?_, fun hpos => ?_⟩,
    fun h hc h0 => ⟨fun hg => ?_, fun hmax hidx hlt => ?_⟩⟩
  · simp [Item.downgrade, h, hc, Item.countDown]
    intro h2
    exact absurd hneg (by omega)
  · simp [Item.downgrade, h, hc, Item.countDown]
    intro h2
    exact absurd hpos (by omega)
  · simp [Item.downgrade, h, hc]
    intro h1 h2
    exact absurd hg (by omega)
  · simp [Item.downgrade, h, hc]
    split_ifs with h1
    · omega
    · rw [htm _ _ (by omega) (by omega)]

/-- Witness for C2 at concrete items: a disabled item, a countable item
in range, one that would go negative, a stepped item at index 0 and one
mid-progression. -/
theorem downgrade_three_step_rule_witness :
    offItem.downgrade = (false, offItem) ∧
    tokenLow.downgrade = (true, .mk { tokenLow.data with count := 0, Enabled := false }) ∧
    tokenItem.downgrade = (true, .mk { tokenItem.data with
      count := tokenItem.count - tokenItem.CountStep }) ∧
    steppedMid.downgrade = (true, .mk { steppedMid.data with
      upgradeIndex := steppedMid.upgradeIndex - 1 }) :=
  ⟨(downgrade_three_step_rule offItem).1 (by decide),
   ((downgrade_three_step_rule tokenLow).2.1 (by decide) (by decide)).1 (by decide),
   ((downgrade_three_step_rule tokenItem).2.1 (by decide) (by decide)).2 (by decide),
   ((downgrade_three_step_rule steppedMid).2.2 (by decide) (by decide) (by decide)).2
     (by decide) (by decide) (by decide)⟩

/-- C8: `Capacity()` returns `-1` for an item without a capacity
concept, the raw `upgradeIndex` (not the count) for a countable item
that has one, and `CapacityProgression[upgradeIndex]` otherwise. -/
theorem capacity_rule (item : Item) :
    (item.HasCapacity = false → item.capacity = some (-1)) ∧
    (item.HasCapacity = true → item.IsCountable = true →
      item.capacity = some item.upgradeIndex) ∧
    (item.HasCapacity = true → item.IsCountable = false →
      ∀ h : 0 ≤ item.upgradeIndex ∧ item.upgradeIndex.toNat < item.CapacityProgression.length,
        item.capacity =
          some (item.CapacityProgression.get ⟨item.upgradeIndex.toNat, h.2⟩)) := by
  refine ⟨fun h => ?_, fun h hc => ?_, fun h hc hb => ?_⟩
  · simp [Item.capacity, h]
  · simp [Item.capacity, h, hc]
  · simp only [Item.capacity, h, hc, Bool.true_eq_false, not_true_eq_false, not_false_eq_true,
      if_true, if_false, Bool.false_eq_true, ite_false, ite_true]
    rw [dif_pos hb]

/-- Witness for C8 at concrete items: one with no capacity, one
countable with capacity, and a plain stepped one. -/
theorem capacity_rule_witness :
    offItem.capacity = some (-1) ∧
    capCountItem.capacity = some capCountItem.upgradeIndex ∧
    steppedMid.capacity =
      some (steppedMid.CapacityProgression.get ⟨steppedMid.upgradeIndex.toNat, by decide⟩) :=
  ⟨(capacity_rule offItem).1 (by decide),
   (capacity_rule capCountItem).2.1 (by decide) (by decide),
   (capacity_rule steppedMid).2.2 (by decide) (by decide) ⟨by decide, by decide⟩⟩

/-- C7 counterexample: the temple label table has 10 entries, not 9;
cycling up from temple index 8 yields 9, which is not `(8 + 1) mod 9 = 0`,
so `CycleTemple` does not cycle modulo a 9-entry label set. -/
theorem cycleTemple_nine_entry_counterexample :
    temples.length = 10 ∧
    (medallionAt8.cycleTemple true).templeIndex ≠ (medallionAt8.templeIndex + 1) % 9 := by
  exact ⟨rfl, by decide⟩

/-- C7 amended: `CycleTemple(up)` increments (up) or decrements (down)
`templeIndex` modulo the length of the fixed 10-entry temple label set,
wrapping in both directions, and never modifies the item's `Enabled`,
`count` or `upgradeIndex` state. -/
theorem cycleTemple_mod_rule (item : Item) (up : Bool)
    (h0 : 0 ≤ item.templeIndex) (h9 : item.templeIndex < (temples.length : Int)) :
    ((item.cycleTemple up).templeIndex =
      (if up then item.templeIndex + 1 else item.templeIndex + ((temples.length : Int) - 1)) %
        (temples.length : Int)) ∧
    (item.cycleTemple up).Enabled = item.Enabled ∧
    (item.cycleTemple up).count = item.count ∧
    (item.cycleTemple up).upgradeIndex = item.upgradeIndex := by
  have hlen : (temples.length : Int) = 10 := rfl
  cases up
  · simp only [Item.cycleTemple, if_false, Bool.false_eq_true]
    rw [hlen] at h9 ⊢
    split_ifs with h1
    · refine ⟨?_, rfl, rfl, rfl⟩
      simp only [templeIndex_mk]
      omega
    · refine ⟨?_, rfl, rfl, rfl⟩
      simp only [templeIndex_mk]
      omega
  · simp only [Item.cycleTemple, if_true]
    refine ⟨?_, rfl, rfl, rfl⟩
    simp only [templeIndex_mk]
    rw [hlen] at h9 ⊢
    rw [Int.tmod_eq_emod (by omega) (by omega)]

/-- Witness for C7 (amended) at a concrete item on the next-to-last
label, cycled in both directions. -/
theorem cycleTemple_mod_rule_witness :
    ((medallionAt8.cycleTemple true).templeIndex =
      (medallionAt8.templeIndex + 1) % (temples.length : Int) ∧
      (medallionAt8.cycleTemple true).Enabled = medallionAt8.Enabled ∧
      (medallionAt8.cycleTemple true).count = medallionAt8.count ∧
      (medallionAt8.cycleTemple true).upgradeIndex = medallionAt8.upgradeIndex) ∧
    ((medallionAt8.cycleTemple false).templeIndex =
      (medallionAt8.templeIndex + ((temples.length : Int) - 1)) % (temples.length : Int) ∧
      (medallionAt8.cycleTemple false).Enabled = medallionAt8.Enabled ∧
      (medallionAt8.cycleTemple false).count = medallionAt8.count ∧
      (medallionAt8.cycleTemple false).upgradeIndex = medallionAt8.upgradeIndex) :=
  ⟨(cycleTemple_mod_rule medallionAt8 true (by decide) (by decide)),
   (cycleTemple_mod_rule medallionAt8 false (by decide) (by decide))⟩

/-- C10: starting from a temple index inside `[0, len(temples)) = [0, 10)`
(as every zero-initialized item is), `CycleTemple` in either direction
stays inside the interval and `TempleText`'s table access is in bounds,
so it never panics. -/
theorem cycleTemple_templeText_safe (item : Item) (up : Bool)
    (h0 : 0 ≤ item.templeIndex) (h9 : item.templeIndex < (temples.length : Int)) :
    (0 ≤ (item.cycleTemple up).templeIndex ∧
      (item.cycleTemple up).templeIndex < (temples.length : Int)) ∧
    (item.templeText).isSome = true := by
  have hlen : (temples.length : Int) = 10 := rfl
  constructor
  · cases up
    · simp only [Item.cycleTemple, if_false, Bool.false_eq_true]
      rw [hlen] at h9 ⊢
      split_ifs with h1 <;> simp only [templeIndex_mk] <;> omega
    · simp only [Item.cycleTemple, if_true, templeIndex_mk]
      rw [hlen] at h9 ⊢
      rw [Int.tmod_eq_emod (by omega) (by omega)]
      constructor
      · exact Int.emod_nonneg _ (by omega)
      · exact Int.emod_lt_of_pos _ (by omega)
  · rw [Item.templeText, dif_pos ⟨h0, by omega⟩]
    rfl

/-- Witness for C10 at a concrete item on the next-to-last label. -/
theorem cycleTemple_templeText_safe_witness :
    ((0 ≤ (medallionAt8.cycleTemple true).templeIndex ∧
      (medallionAt8.cycleTemple true).templeIndex < (temples.length : Int)) ∧
      (medallionAt8.templeText).isSome = true) :=
  cycleTemple_templeText_safe medallionAt8 true (by decide) (by decide)

theorem goodCount_applyOp (m s : Int) (hm : m ≠ 0) (hs : 0 ≤ s) (item : Item)
    (h : GoodCount m s item) (op : ItemOp) : GoodCount m s (item.applyOp op) := by
  obtain ⟨h1, h2, h3, h4⟩ := h
  have hc : item.IsCountable = true := by
    simp only [Item.IsCountable, decide_eq_true_eq]
    omega
  cases op
  · by_cases hEn : item.Enabled = true
    · have hstep : item.applyOp .up = item.countUp := by
        simp [Item.applyOp, Item.upgrade, hEn, hc]
      rw [hstep]
      unfold Item.countUp GoodCount
      dsimp only
      split_ifs with hclamp <;>
        simp only [Item.count, Item.CountMax, Item.CountStep, Item.data_mk] at * <;>
        omega
    · have hstep : item.applyOp .up = Item.mk { item.data with Enabled := true } := by
        simp [Item.applyOp, Item.upgrade, hEn]
      rw [hstep]
      unfold GoodCount
      simp only [Item.count, Item.CountMax, Item.CountStep, Item.data_mk] at *
      omega
  · by_cases hEn : item.Enabled = true
    · have hstep : item.applyOp .down = item.countDown := by
        simp [Item.applyOp, Item.downgrade, hEn, hc]
      rw [hstep]
      unfold Item.countDown GoodCount
      dsimp only
      split_ifs with hneg <;>
        simp only [Item.count, Item.CountMax, Item.CountStep, Item.data_mk] at * <;>
        omega
    · have hstep : item.applyOp .down = item := by
        simp [Item.applyOp, Item.downgrade, hEn]
      rw [hstep]
      exact ⟨h1, h2, h3, h4⟩

theorem goodCount_applyOps (m s : Int) (hm : m ≠ 0) (hs : 0 ≤ s) :
    ∀ (ops : List ItemOp) (item : Item),
      GoodCount m s item → GoodCount m s (item.applyOps ops)
  | [], _, h => h
  | op :: ops, item, h =>
    goodCount_applyOps m s hm hs ops (item.applyOp op) (goodCount_applyOp m s hm hs item h op)

/-- C3: for a countable item whose count starts in `[0, CountMax]` and
whose `CountStep` is non-negative, every sequence of `Upgrade` and
`Downgrade` calls keeps the count in `[0, CountMax]`, and on an enabled
item `Downgrade` disables it exactly when `count - CountStep` would be
negative. -/
theorem countable_count_invariant (item : Item) (ops : List ItemOp)
    (hc : item.IsCountable = true) (hs : 0 ≤ item.CountStep)
    (h0 : 0 ≤ item.count) (h1 : item.count ≤ item.CountMax) :
    (0 ≤ (item.applyOps ops).count ∧ (item.applyOps ops).count ≤ item.CountMax) ∧
    (item.Enabled = true →
      ((item.downgrade.2).Enabled = false ↔ item.count - item.CountStep < 0)) := by
  have hm : item.CountMax ≠ 0 := by
    simpa [Item.IsCountable] using hc
  constructor
  · have := goodCount_applyOps item.CountMax item.CountStep hm hs ops item
      ⟨rfl, rfl, h0, h1⟩
    exact ⟨this.2.2.1, this.2.2.2⟩
  · intro hEn
    have hstep : item.downgrade.2 = item.countDown := by
      simp [Item.downgrade, hEn, hc]
    rw [hstep]
    unfold Item.countDown
    dsimp only
    split_ifs with hneg
    · simpa [Item.Enabled] using hneg
    · simp only [Item.Enabled, Item.data_mk] at hEn ⊢
      simp [hEn]
      omega

theorem isCountable_false_of_countMax_zero (item : Item) (hcm : item.CountMax = 0) :
    item.IsCountable = false := by
  simp [Item.IsCountable, hcm]

theorem progressionMax_stepped (item : Item) (hIP : item.ItemProgression = [])
    (hCPpos : 0 < item.CapacityProgression.length) :
    item.progressionMax = (item.CapacityProgression.length : Int) := by
  simp [Item.progressionMax, hIP, hCPpos]

theorem upgrade_snd_stepped (item : Item) (hEn : item.Enabled = true)
    (hc : item.IsCountable = false) (h0 : 0 ≤ item.upgradeIndex)
    (hlt : item.upgradeIndex + 1 < item.progressionMax) :
    item.upgrade.2 = Item.mk { item.data with upgradeIndex := item.upgradeIndex + 1 } := by
  simp [Item.upgrade, hEn, hc]
  split_ifs with h1
  · omega
  · have : (item.upgradeIndex + 1).tmod item.progressionMax = item.upgradeIndex + 1 := by
      rw [Int.tmod_eq_emod (by omega) (by omega)]
      exact Int.emod_eq_of_lt (by omega) hlt
    rw [this]

theorem upgrade_fst_top (item : Item) (hEn : item.Enabled = true)
    (hc : item.IsCountable = false) (hge : item.progressionMax ≤ item.upgradeIndex + 1) :
    item.upgrade.1 = false := by
  simp only [Item.upgrade, hEn, hc]
  norm_num
  split_ifs with h1
  · rfl
  · omega

theorem downgrade_snd_stepped_pos (item : Item) (hEn : item.Enabled = true)
    (hc : item.IsCountable = false) (h1 : 1 ≤ item.upgradeIndex)
    (hlt : item.upgradeIndex < item.progressionMax) :
    item.downgrade.2 = Item.mk { item.data with upgradeIndex := item.upgradeIndex - 1 } := by
  simp [Item.downgrade, hEn, hc]
  split_ifs with hg
  · omega
  · have : (item.upgradeIndex - 1).tmod item.progressionMax = item.upgradeIndex - 1 := by
      rw [Int.tmod_eq_emod (by omega) (by omega)]
      exact Int.emod_eq_of_lt (by omega) (by omega)
    rw [this]

theorem downgrade_snd_stepped_zero (item : Item) (hEn : item.Enabled = true)
    (hc : item.IsCountable = false) (hidx : item.upgradeIndex = 0) :
    item.downgrade.2 = Item.mk { item.data with Enabled := false } := by
  simp [Item.downgrade, hEn, hc]
  split_ifs with hg
  · rfl
  · omega

theorem stepped_upgrade_chain (N : Nat) :
    ∀ (k : Nat) (item : Item), item.ItemProgression = [] →
      item.CapacityProgression.length = N → item.CountMax = 0 →
      item.Enabled = true → 0 ≤ item.upgradeIndex →
      item.upgradeIndex + k ≤ (N : Int) - 1 →
      (item.applyOps (List.replicate k .up)).Enabled = true ∧
      (item.applyOps (List.replicate k .up)).upgradeIndex = item.upgradeIndex + k ∧
      (item.applyOps (List.replicate k .up)).ItemProgression = [] ∧
      (item.applyOps (List.replicate k .up)).CapacityProgression = item.CapacityProgression ∧
      (item.applyOps (List.replicate k .up)).CountMax = 0
  | 0, item, hIP, hCP, hcm, hEn, h0, hbound => by
    have h : item.applyOps (List.replicate 0 .up) = item := rfl
    rw [h]
    exact ⟨hEn, by simp, hIP, rfl, hcm⟩
  | k + 1, item, hIP, hCP, hcm, hEn, h0, hbound => by
    have hc := isCountable_false_of_countMax_zero item hcm
    have hNpos : 0 < item.CapacityProgression.length := by
      rw [hCP]
      omega
    have hmax := progressionMax_stepped item hIP hNpos
    have hstep := upgrade_snd_stepped item hEn hc h0 (by rw [hmax, hCP]; omega)
    rw [List.replicate_succ]
    have happ : item.applyOps (.up :: List.replicate k .up) =
        (item.upgrade.2).applyOps (List.replicate k .up) := rfl
    rw [happ, hstep]
    have := stepped_upgrade_chain N k (Item.mk { item.data with upgradeIndex := item.upgradeIndex + 1 })
      (by simpa [Item.ItemProgression] using hIP)
      (by simpa [Item.CapacityProgression] using hCP)
      (by simpa [Item.CountMax] using hcm)
      (by simpa [Item.Enabled] using hEn)
      (by simp; omega)
      (by simp; push_cast at hbound; omega)
    refine ⟨this.1, ?_, this.2.2.1, ?_, this.2.2.2.2⟩
    · rw [this.2.1]
      simp
      ring
    · rw [this.2.2.2.1]
      simp [Item.CapacityProgression]

theorem stepped_downgrade_chain (N : Nat) :
    ∀ (j : Nat) (item : Item), item.ItemProgression = [] →
      item.CapacityProgression.length = N → item.CountMax = 0 →
      item.Enabled = true → item.upgradeIndex = (j : Int) → j < N →
      (item.applyOps (List.replicate (j + 1) .down)).Enabled = false ∧
      (item.applyOps (List.replicate (j + 1) .down)).upgradeIndex = 0
  | 0, item, hIP, hCP, hcm, hEn, hidx, hj => by
    have hc := isCountable_false_of_countMax_zero item hcm
    have hstep := downgrade_snd_stepped_zero item hEn hc (by simpa using hidx)
    rw [List.replicate_succ]
    have happ : item.applyOps (.down :: List.replicate 0 .down) =
        (item.downgrade.2).applyOps (List.replicate 0 .down) := rfl
    rw [happ, hstep]
    simp only [List.replicate, Item.applyOps]
    exact ⟨by simp [Item.Enabled], by simpa [Item.upgradeIndex] using hidx⟩
  | j + 1, item, hIP, hCP, hcm, hEn, hidx, hj => by
    have hc := isCountable_false_of_countMax_zero item hcm
    have hNpos : 0 < item.CapacityProgression.length := by
      rw [hCP]
      omega
    have hmax := progressionMax_stepped item hIP hNpos
    have hstep := downgrade_snd_stepped_pos item hEn hc (by rw [hidx]; push_cast; omega)
      (by rw [hmax, hCP, hidx]; push_cast; omega)
    rw [List.replicate_succ]
    have happ : item.applyOps (.down :: List.replicate (j + 1) .down) =
        (item.downgrade.2).applyOps (List.replicate (j + 1) .down) := rfl
    rw [happ, hstep]
    exact stepped_downgrade_chain N j (Item.mk { item.data with upgradeIndex := item.upgradeIndex - 1 })
      (by simpa [Item.ItemProgression] using hIP)
      (by simpa [Item.CapacityProgression] using hCP)
      (by simpa [Item.CountMax] using hcm)
      (by simpa [Item.Enabled] using hEn)
      (by simp [Item.upgradeIndex] at hidx ⊢; omega)
      (by omega)

/-- C4 counterexample: for a disabled item with a 2-entry capacity
progression (`N = 2`), a single `Upgrade()` (`N - 1` calls) only
enables the item and leaves `upgradeIndex` at `0`, not at
`N - 1 = 1`: reaching the top tier takes `N` calls, not `N - 1`. -/
theorem stepped_n_minus_one_counterexample :
    steppedOff2.CapacityProgression.length = 2 ∧
    steppedOff2.Enabled = false ∧ steppedOff2.upgradeIndex = 0 ∧
    (steppedOff2.applyOps (List.replicate 1 .up)).upgradeIndex ≠
      (steppedOff2.CapacityProgression.length : Int) - 1 := by
  refine ⟨rfl, rfl, rfl, ?_⟩
  decide

/-- C4 amended: for a disabled non-countable item with empty
`ItemProgression` and `CapacityProgression` of length `N >= 1` and
`upgradeIndex = 0`, `N` `Upgrade()` calls (one enables, `N - 1` step the
tier) reach the top tier `upgradeIndex = N - 1`; one further `Upgrade()`
returns false; and `N` consecutive `Downgrade()` calls from the top
return the item to the disabled state. -/
theorem stepped_capacity_cycle (item : Item) (N : Nat)
    (hIP : item.ItemProgression = []) (hCP : item.CapacityProgression.length = N)
    (hN : 1 ≤ N) (hcm : item.CountMax = 0)
    (hEn : item.Enabled = false) (hidx : item.upgradeIndex = 0) :
    ((item.applyOps (List.replicate N .up)).Enabled = true ∧
      (item.applyOps (List.replicate N .up)).upgradeIndex = (N : Int) - 1) ∧
    ((item.applyOps (List.replicate N .up)).upgrade.1 = false) ∧
    (((item.applyOps (List.replicate N .up)).applyOps (List.replicate N .down)).Enabled = false ∧
      ((item.applyOps (List.replicate N .up)).applyOps (List.replicate N .down)).upgradeIndex = 0) := by
  obtain ⟨M, rfl⟩ : ∃ M, N = M + 1 := ⟨N - 1, by omega⟩
  have hidxD : item.data.upgradeIndex = 0 := by simpa [Item.upgradeIndex] using hidx
  have hfirst : item.applyOp .up = Item.mk { item.data with Enabled := true } := by
    simp [Item.applyOp, Item.upgrade, hEn]
  have happ : item.applyOps (List.replicate (M + 1) .up) =
      (Item.mk { item.data with Enabled := true }).applyOps (List.replicate M .up) := by
    rw [List.replicate_succ]
    show (item.applyOp .up).applyOps (List.replicate M .up) = _
    rw [hfirst]
  have hchain := stepped_upgrade_chain (M + 1) M (Item.mk { item.data with Enabled := true })
    (by simpa [Item.ItemProgression] using hIP)
    (by simpa [Item.CapacityProgression] using hCP)
    (by simpa [Item.CountMax] using hcm)
    (by simp [Item.Enabled])
    (by simp [Item.upgradeIndex, hidxD])
    (by simp [Item.upgradeIndex, hidxD])
  rw [happ]
  set top := (Item.mk { item.data with Enabled := true }).applyOps (List.replicate M .up) with htop
  obtain ⟨htEn, htIdx, htIP, htCP, htCM⟩ := hchain
  have htIdx' : top.upgradeIndex = (M : Int) := by
    rw [htIdx]
    simp [Item.upgradeIndex, hidxD]
  have hidxN : top.upgradeIndex = ((M + 1 : Nat) : Int) - 1 := by
    rw [htIdx']
    push_cast
    ring
  have htCP' : top.CapacityProgression.length = M + 1 := by
    rw [htCP]
    simpa [Item.CapacityProgression] using hCP
  have hc := isCountable_false_of_countMax_zero top htCM
  have hmax := progressionMax_stepped top htIP (by omega)
  refine ⟨⟨htEn, hidxN⟩, ?_, ?_⟩
  · exact upgrade_fst_top top htEn hc (by rw [hmax, htCP', htIdx']; push_cast; omega)
  · exact stepped_downgrade_chain (M + 1) M top htIP htCP' htCM htEn htIdx' (by omega)

/-- Witness for C4 (amended) at a concrete 2-tier item. -/
theorem stepped_capacity_cycle_witness :
    (((steppedOff2.applyOps (List.replicate 2 .up)).Enabled = true ∧
      (steppedOff2.applyOps (List.replicate 2 .up)).upgradeIndex = (2 : Int) - 1) ∧
    ((steppedOff2.applyOps (List.replicate 2 .up)).upgrade.1 = false) ∧
    (((steppedOff2.applyOps (List.replicate 2 .up)).applyOps
        (List.replicate 2 .down)).Enabled = false ∧
      ((steppedOff2.applyOps (List.replicate 2 .up)).applyOps
        (List.replicate 2 .down)).upgradeIndex = 0)) :=
  stepped_capacity_cycle steppedOff2 2 rfl rfl (by decide) rfl rfl rfl

/-- Witness for C3: a concrete countable item under an up-down-down
sequence. -/
theorem countable_count_invariant_witness :
    ((0 ≤ (tokenLow.applyOps [ItemOp.up, ItemOp.down, ItemOp.down]).count ∧
      (tokenLow.applyOps [ItemOp.up, ItemOp.down, ItemOp.down]).count ≤ tokenLow.CountMax) ∧
      (tokenLow.Enabled = true →
        ((tokenLow.downgrade.2).Enabled = false ↔ tokenLow.count - tokenLow.CountStep < 0))) :=
  countable_count_invariant tokenLow [ItemOp.up, ItemOp.down, ItemOp.down]
    (by decide) (by decide) (by decide) (by decide)

theorem fin9_mk_eq (a : Nat) (h : a < 9) (z : Fin 9) (hv : a = z.val) :
    (⟨a, h⟩ : Fin 9) = z := Fin.ext hv

theorem getZoneItem_inbounds (t : Tracker) (z i : Fin 9) :
    t.getZoneItem ((z.val : Int) + 1) ((i.val : Int) + 1) =
      (if t.zoneItemMap z i = ""
       then .error (.undefinedMapping ((z.val : Int) + 1) ((i.val : Int) + 1))
       else .ok (t.zoneItemMap z i)) := by
  have hz := z.isLt
  have hi := i.isLt
  unfold Tracker.getZoneItem
  rw [dif_neg (by omega), dif_neg (by omega)]
  rw [fin9_mk_eq _ _ z (by omega), fin9_mk_eq _ _ i (by omega)]

/-- C5: `GetZoneItem` fails with the zone-range error for a zone digit
outside `[1, 9]`, with the item-range error for an item digit outside
`[1, 9]`, with the undefined-mapping error when the addressed cell is
empty, and otherwise returns the stored cell; concretely, against a map
with `map[4][4] = "Hookshot"`, `(5,5)` resolves to `"Hookshot"`, `(0,5)`
and `(10,5)` fail the range check, and `(1,1)` hits an empty cell. -/
theorem getZoneItem_rule (t : Tracker) (zoneKP itemKP : Int) :
    ((zoneKP ≤ 0 ∨ 9 < zoneKP) → t.getZoneItem zoneKP itemKP = .error .invalidZoneKP) ∧
    (¬ (zoneKP ≤ 0 ∨ 9 < zoneKP) → (itemKP ≤ 0 ∨ 9 < itemKP) →
      t.getZoneItem zoneKP itemKP = .error .invalidItemKP) ∧
    (∀ z i : Fin 9, zoneKP = (z.val : Int) + 1 → itemKP = (i.val : Int) + 1 →
      (t.zoneItemMap z i = "" →
        t.getZoneItem zoneKP itemKP = .error (.undefinedMapping zoneKP itemKP)) ∧
      (t.zoneItemMap z i ≠ "" →
        t.getZoneItem zoneKP itemKP = .ok (t.zoneItemMap z i))) ∧
    baseTracker.getZoneItem 5 5 = .ok "Hookshot" ∧
    baseTracker.getZoneItem 0 5 = .error .invalidZoneKP ∧
    baseTracker.getZoneItem 10 5 = .error .invalidZoneKP ∧
    baseTracker.getZoneItem 1 1 = .error (.undefinedMapping 1 1) := by
  refine ⟨fun h => ?_, fun h1 h2 => ?_, fun z i hz hi => ?_, rfl, rfl, rfl, rfl⟩
  · unfold Tracker.getZoneItem
    rw [dif_pos h]
  · unfold Tracker.getZoneItem
    rw [dif_neg h1, dif_pos h2]
  · subst hz
    subst hi
    rw [getZoneItem_inbounds]
    exact ⟨fun he => by rw [if_pos he], fun he => by rw [if_neg he]⟩

/-- Witness for C5 applying the general clauses at concrete digits. -/
theorem getZoneItem_rule_witness :
    baseTracker.getZoneItem 10 5 = .error .invalidZoneKP ∧
    baseTracker.getZoneItem 5 0 = .error .invalidItemKP ∧
    baseTracker.getZoneItem 5 5 = .ok (baseTracker.zoneItemMap ⟨4, by omega⟩ ⟨4, by omega⟩) :=
  ⟨(getZoneItem_rule baseTracker 10 5).1 (by decide),
   (getZoneItem_rule baseTracker 5 0).2.1 (by decide) (by decide),
   ((getZoneItem_rule baseTracker 5 5).2.2.1 ⟨4, by decide⟩ ⟨4, by decide⟩
     (by decide) (by decide)).2 (by decide)⟩

theorem itemIndexFrom_not_found (name : String) :
    ∀ (l : List Item) (k : Nat), (∀ it ∈ l, it.Name ≠ name) → itemIndexFrom name l k = -1
  | [], _, _ => rfl
  | it :: rest, k, h => by
    unfold itemIndexFrom
    rw [if_neg (h it (List.mem_cons_self it rest))]
    exact itemIndexFrom_not_found name rest (k + 1)
      (fun x hx => h x (List.mem_cons_of_mem _ hx))

theorem itemIndexFrom_found (name : String) :
    ∀ (l : List Item) (k j : Nat) (hj : j < l.length),
      (l.get ⟨j, hj⟩).Name = name →
      (∀ j' (h1 : j' < j) (h2 : j' < l.length), (l.get ⟨j', h2⟩).Name ≠ name) →
      itemIndexFrom name l k = ((k + j : Nat) : Int)
  | [], _, _, hj, _, _ => absurd hj (by simp)
  | it :: rest, k, 0, hj, hname, _ => by
    unfold itemIndexFrom
    rw [if_pos (by simpa using hname)]
    simp
  | it :: rest, k, j + 1, hj, hname, hprev => by
    unfold itemIndexFrom
    rw [if_neg (by simpa using hprev 0 (by omega) (by simp))]
    have step := itemIndexFrom_found name rest (k + 1) j (by simpa using hj)
      (by simpa using hname)
      (fun j' h1 h2 => by simpa using hprev (j' + 1) (by omega) (by simpa using h2))
    rw [step]
    congr 1
    omega

/-- C6: `GetZoneItemIndex` propagates any `GetZoneItem` error with
index `-1`, fails with the distinct misconfiguration error (and `-1`)
exactly when the resolved name matches no catalog item, and otherwise
returns the index of the first catalog item carrying the name. -/
theorem getZoneItemIndex_rule (t : Tracker) (zoneKP itemKP : Int) :
    (∀ e, t.getZoneItem zoneKP itemKP = .error e →
      t.getZoneItemIndex zoneKP itemKP = (-1, some e)) ∧
    (∀ name, t.getZoneItem zoneKP itemKP = .ok name →
      ((∀ it ∈ t.items, it.Name ≠ name) →
        t.getZoneItemIndex zoneKP itemKP = (-1, some (.misconfigured name))) ∧
      (∀ (j : Nat) (hj : j < t.items.length),
        (t.items.get ⟨j, hj⟩).Name = name →
        (∀ j' (h1 : j' < j) (h2 : j' < t.items.length),
          (t.items.get ⟨j', h2⟩).Name ≠ name) →
        t.getZoneItemIndex zoneKP itemKP = ((j : Int), none))) := by
  constructor
  · intro e he
    unfold Tracker.getZoneItemIndex
    rw [he]
  · intro name hname
    constructor
    · intro habs
      unfold Tracker.getZoneItemIndex
      rw [hname]
      dsimp only
      unfold Tracker.getItemIndexByName
      rw [itemIndexFrom_not_found name t.items 0 habs]
      norm_num
    · intro j hj hjname hprev
      unfold Tracker.getZoneItemIndex
      rw [hname]
      dsimp only
      unfold Tracker.getItemIndexByName
      rw [itemIndexFrom_found name t.items 0 j hj hjname hprev]
      rw [if_neg (by omega)]
      norm_num

/-- Witness for C6: the error path at digit 0 and the success path
resolving `"Hookshot"` to catalog index 1. -/
theorem getZoneItemIndex_rule_witness :
    baseTracker.getZoneItemIndex 0 5 = (-1, some .invalidZoneKP) ∧
    baseTracker.getZoneItemIndex 5 5 = ((1 : Int), none) :=
  ⟨(getZoneItemIndex_rule baseTracker 0 5).1 .invalidZoneKP rfl,
   ((getZoneItemIndex_rule baseTracker 5 5).2 "Hookshot" rfl).2 1 (by decide) (by decide)
     (fun j' h1 h2 => by
       have hz : j' = 0 := by omega
       subst hz
       show (baseTracker.items.get ⟨0, by decide⟩).Name ≠ "Hookshot"
       decide)⟩

/-- C9: `Reset` installs the given catalog and zone-item map and, for
every prior tracker state, leaves the undo stack, redo stack, woths,
barrens and sometimes collections empty and all 7 `always` slots blank. -/
theorem reset_full_replace (t : Tracker) (items : List Item) (m : ZoneItemMap) :
    (t.reset items m).items = items ∧
    (t.reset items m).zoneItemMap = m ∧
    (t.reset items m).undoStack = [] ∧
    (t.reset items m).redoStack = [] ∧
    (t.reset items m).woths = [] ∧
    (t.reset items m).barrens = [] ∧
    (t.reset items m).sometimes = [] ∧
    (∀ k : Fin 7, (t.reset items m).always k = "") :=
  ⟨rfl, rfl, rfl, rfl, rfl, rfl, rfl, fun _ => rfl⟩

end Ivan
